import Mathlib

/-!
Formal model of the ns-3 AODV example script (`scratch/aodv.cc`).

The script builds a 1-dimensional grid of wifi nodes, installs the AODV
routing stack with addresses from 10.0.0.0/255.0.0.0, opens a UDP receive
socket on port 80 on every node, installs a single OnOff traffic flow from
node 0 to the last node, traces transmit and receive events, and runs the
discrete-event simulator.  Pure configuration and application-installation
logic is embedded directly from the source; ns-3 library components that
the script calls (position allocator, address helper, simulator core,
random variables) are modelled from the specification, each marked with a
`Modelled from the spec:` doc comment.  Times and distances are rationals;
IPv4 addresses are naturals (32-bit values).
-/

namespace Aodv

/-- Script parameters, from the private fields of `AodvExample`
(`size`, `step`, `totalTime`, `pcap`, `printRoutes`). -/
structure Config where
  size : Nat
  step : ℚ
  totalTime : ℚ
  pcap : Bool
  printRoutes : Bool
deriving DecidableEq

/-- Default parameter values from the `AodvExample` constructor:
size 10, step 100, totalTime 100, pcap false, printRoutes true. -/
def defaultConfig : Config :=
  { size := 10, step := 100, totalTime := 100, pcap := false, printRoutes := true }

/-- A command-line argument: one of the five flags registered by
`Configure` via `cmd.AddValue`, carrying its parsed value, or an argument
the command line does not recognize. -/
inductive Arg where
  | pcapFlag (b : Bool)
  | printRoutesFlag (b : Bool)
  | sizeFlag (n : Nat)
  | timeFlag (t : ℚ)
  | stepFlag (s : ℚ)
  | invalidFlag
deriving DecidableEq

/-- Modelled from the spec: `CommandLine::Parse` (ns-3 core, not under
`src/`) applies each recognized flag to the variable bound by `AddValue`;
an invalid flag is a fatal configuration error (`none`, the run aborts
before any topology is built). -/
def applyArg (c : Config) : Arg → Option Config
  | .pcapFlag b => some { c with pcap := b }
  | .printRoutesFlag b => some { c with printRoutes := b }
  | .sizeFlag n => some { c with size := n }
  | .timeFlag t => some { c with totalTime := t }
  | .stepFlag s => some { c with step := s }
  | .invalidFlag => none

/-- Modelled from the spec: the command line applies the arguments in
order, aborting at the first invalid one. -/
def parseArgs : Config → List Arg → Option Config
  | c, [] => some c
  | c, a :: rest => (applyArg c a).bind (fun c2 => parseArgs c2 rest)

/-- `AodvExample::Configure`: seeds the RNG, registers the five flags,
parses, and then unconditionally executes `return true` (line 140).  It
yields `none` only when the parser itself aborted, in which case the
caller never observes a return value. -/
def Configure (args : List Arg) : Option (Config × Bool) :=
  (parseArgs defaultConfig args).map (fun c => (c, true))

/-- Outcome of `main`: normal `return 0`, a fatal abort raised inside
command-line parsing, or the `NS_FATAL_ERROR` branch taken in `main` when
`Configure` returns false. -/
inductive MainOutcome where
  | exitZero
  | fatalParse
  | fatalConfigBranch
deriving DecidableEq

/-- `main`: constructs the example, aborts through `NS_FATAL_ERROR` if
`Configure` returns false, otherwise runs to completion and returns 0. -/
def mainOutcome (args : List Arg) : MainOutcome :=
  match Configure args with
  | none => .fatalParse
  | some p => if p.2 then .exitZero else .fatalConfigBranch

/-- Modelled from the spec: `ns3::GridPositionAllocator` (not under
`src/`) with `RowFirst` layout places node `i` at
`(minX + (i mod width)·deltaX, minY + (i div width)·deltaY)`, the
row-major grid formula of the TopologyBuilder contract. -/
def gridPosition (minX minY deltaX deltaY : ℚ) (width : Nat) (i : Nat) : ℚ × ℚ :=
  (minX + ((i % width : Nat) : ℚ) * deltaX, minY + ((i / width : Nat) : ℚ) * deltaY)

/-- `AodvExample::CreateNodes` configures the allocator with MinX 0,
MinY 0, DeltaX `step`, DeltaY 0, GridWidth `size`, LayoutType RowFirst
(lines 178-184): the position given to node `i`. -/
def createNodesPosition (size : Nat) (step : ℚ) (i : Nat) : ℚ × ℚ :=
  gridPosition 0 0 step 0 size i

/-- Network base address 10.0.0.0 as a 32-bit value, from
`address.SetBase ("10.0.0.0", "255.0.0.0")`. -/
def ipBase : Nat := 10 * 2 ^ 24

/-- Number of assignable host values under mask 255.0.0.0 (hosts
1 .. 2^24 - 2; the all-zero and all-one host parts are reserved). -/
def hostMax : Nat := 2 ^ 24 - 2

/-- Modelled from the spec: `Ipv4AddressHelper::Assign` (not under
`src/`) draws one address per device sequentially from the configured
subnet pool, starting at the first host of 10.0.0.0/255.0.0.0; it fails
fatally if the pool is exhausted (fewer addresses than nodes). -/
def assignAddresses (n : Nat) : Option (List Nat) :=
  if n ≤ hostMax then some ((List.range n).map (fun i => ipBase + i + 1)) else none

/-- A passive receive endpoint: in `InstallApplications` every node gets a
socket of type `ns3::UdpSocketFactory`, bound to `(Ipv4Address::GetAny (),
80)`, with `ReceiveRoutingPacket` installed as receive callback
(lines 241-248). -/
structure Sink where
  node : Nat
  tid : String
  port : Nat
  hasRecvCallback : Bool
deriving DecidableEq

/-- The sink-creation loop `for (i = 0; i < nodes.GetN (); i++)` of
`InstallApplications`. -/
def installSinks (n : Nat) : List Sink :=
  (List.range n).map
    (fun i => { node := i, tid := "ns3::UdpSocketFactory", port := 80, hasRecvCallback := true })

/-- One OnOff traffic flow: source node, destination address and port,
start and stop times in seconds. -/
structure Flow where
  sourceNode : Nat
  destAddr : Nat
  destPort : Nat
  startTime : ℚ
  stopTime : ℚ
deriving DecidableEq

/-- Result of `AodvExample::InstallApplications`: the per-node sinks, the
installed flows, and the stop time passed to `Simulator::Stop`. -/
structure AppInstall where
  sinks : List Sink
  flows : List Flow
  simStopAt : ℚ
deriving DecidableEq

/-- `AodvExample::InstallApplications` (lines 241-277).  The sink loop runs
over all nodes; then `interfaces.GetAddress (size - 1)` is evaluated —
`size` is a `uint32_t`, so for `size = 0` the index wraps to `2^32 - 1`,
and an index outside the interface container is an out-of-range access
(`none`); then one OnOff application is installed on `nodes.Get (0)`
(out of range when there is no node 0), addressed to the looked-up address
on port 80, started at the drawn value `r` of
`var->GetValue (1.0, 2.0)` and stopped at `Seconds (10)`; finally
`Simulator::Stop (Seconds (totalTime))` is set.  `totalTime` influences
only the simulator stop, never the flow. -/
def installApplications (size : Nat) (totalTime : ℚ) (addrs : List Nat) (r : ℚ) :
    Option AppInstall :=
  match addrs.get? ((size + 2 ^ 32 - 1) % 2 ^ 32) with
  | none => none
  | some destAddr =>
    if size = 0 then none
    else
      some { sinks := installSinks size,
             flows := [{ sourceNode := 0, destAddr := destAddr, destPort := 80,
                         startTime := r, stopTime := 10 }],
             simStopAt := totalTime }

/-- `AodvExample::OnOffTrace` (lines 287-306): builds one output line in an
`ostringstream` — the time and `" source "`, then the source IPv4 and
`" send to dest "` when the source is an `InetSocketAddress`, then the
destination IPv4 when the destination is one — and emits it with a single
`NS_LOG_UNCOND`. -/
def onOffTraceLine (timeStr : String) (srcIsInet destIsInet : Bool)
    (srcIp destIp : String) : String :=
  let s1 := timeStr ++ " source "
  let s2 := if srcIsInet then s1 ++ srcIp ++ " send to dest " else s1
  if destIsInet then s2 ++ destIp else s2

/-- `PrintReceivedRoutingPacket` (lines 308-325): the time and the
receiving node id, then either `" received one packet from "` and the
source IPv4 when the source address is an `InetSocketAddress`, or
`" received one packet!"` otherwise. -/
def printReceivedRoutingPacket (timeStr : String) (nodeId : Nat)
    (srcIsInet : Bool) (srcIp : String) : String :=
  let s := timeStr ++ " " ++ toString nodeId
  if srcIsInet then s ++ " received one packet from " ++ srcIp
  else s ++ " received one packet!"

/-- A packet as seen by the receive callback: whether its source address
converts to an `InetSocketAddress`, and that source's IPv4 rendering. -/
structure RecvPacket where
  srcIsInet : Bool
  srcIp : String
deriving DecidableEq

/-- `AodvExample::ReceiveRoutingPacket` (lines 327-339): for each packet
drained by the `RecvFrom` loop it emits exactly one line with
`NS_LOG_UNCOND ("AODV " + PrintReceivedRoutingPacket (...))`. -/
def receiveRoutingPacket (timeStr : String) (nodeId : Nat)
    (pkts : List RecvPacket) : List String :=
  pkts.map (fun p => "AODV " ++ printReceivedRoutingPacket timeStr nodeId p.srcIsInet p.srcIp)

/-- A scheduled simulator event: absolute fire time and insertion
sequence number. -/
structure Ev where
  time : ℚ
  seq : Nat
deriving DecidableEq

/-- Strict ordering on the scheduler key `(time, insertion sequence)`. -/
def evKeyLt (a b : Ev) : Prop :=
  a.time < b.time ∨ (a.time = b.time ∧ a.seq < b.seq)

/-- Modelled from the spec: the Scheduler (ns-3 `Simulator` core, not
under `src/`) keeps its queue ordered by fire time with stable FIFO ties:
a newly scheduled event is placed after every pending event whose time is
not later than its own. -/
def insertEvent (e : Ev) : List Ev → List Ev
  | [] => [e]
  | f :: fs => if e.time < f.time then e :: f :: fs else f :: insertEvent e fs

/-- Modelled from the spec: scheduling a list of fire times in order,
stamping each with its insertion sequence number. -/
def scheduleAll : Nat → List ℚ → List Ev → List Ev
  | _, [], q => q
  | s, t :: ts, q => scheduleAll (s + 1) ts (insertEvent { time := t, seq := s } q)

/-- Modelled from the spec: `run (stopTime)` dispatches the pending queue
in order; an event whose fire time lies beyond the stop time is dropped
silently and never dispatched (with the queue sorted this coincides with
the dispatch loop halting at the stop time). -/
def dispatched (times : List ℚ) (stop : ℚ) : List Ev :=
  (scheduleAll 0 times []).filter (fun e => decide (e.time ≤ stop))

/-- The calls issued by the script, in program order. -/
inductive SimCall where
  | createNodes
  | createDevices
  | installInternetStack
  | sinkSetup
  | onOffSetup
  | traceConnect
  | startMsg
  | simStop
  | simRun
  | simDestroy
deriving DecidableEq

/-- Call order inside `AodvExample::InstallApplications`: the sink loop,
the OnOff application setup, the `Config::Connect` of the Tx trace, then
`Simulator::Stop`, `Simulator::Run`, `Simulator::Destroy` (lines 274-276). -/
def installApplicationsCalls : List SimCall :=
  [.sinkSetup, .onOffSetup, .traceConnect, .simStop, .simRun, .simDestroy]

/-- Call order of `AodvExample::Run` (lines 143-157): the four setup
steps (with `InstallApplications` expanded), the "Starting simulation"
message, then `Simulator::Stop`, `Simulator::Run`, `Simulator::Destroy`. -/
def runCalls : List SimCall :=
  [.createNodes, .createDevices, .installInternetStack] ++ installApplicationsCalls
    ++ [.startMsg, .simStop, .simRun, .simDestroy]

/-- `InstallInternetStack` (lines 219-223): when `printRoutes` is set, a
routing-table dump is scheduled at `Seconds (8)`; modelled from the spec,
`PrintRoutingTableAllAt` (not under `src/`) writes one section per node. -/
def routingDump (c : Config) : Option (ℚ × Nat) :=
  if c.printRoutes then some (8, c.size) else none

/-! Helper lemmas -/

theorem mem_insertEvent {e g : Ev} : ∀ {q : List Ev}, g ∈ insertEvent e q ↔ g = e ∨ g ∈ q
  | [] => by simp [insertEvent]
  | f :: fs => by
    simp only [insertEvent]
    by_cases h : e.time < f.time
    · simp [h, List.mem_cons]
    · simp [h, List.mem_cons, mem_insertEvent]
      tauto

theorem pairwise_insertEvent {e : Ev} : ∀ {q : List Ev},
    q.Pairwise evKeyLt → (∀ f ∈ q, f.seq < e.seq) → (insertEvent e q).Pairwise evKeyLt
  | [], _, _ => by simp [insertEvent]
  | f :: fs, hq, hs => by
    rcases List.pairwise_cons.mp hq with ⟨hf, hfs⟩
    simp only [insertEvent]
    by_cases h : e.time < f.time
    · simp only [h, if_true]
      refine List.pairwise_cons.mpr ⟨?_, hq⟩
      intro g hg
      rcases List.mem_cons.mp hg with hgf | hgfs
      · exact Or.inl (hgf ▸ h)
      · rcases hf g hgfs with hlt | ⟨heq, _⟩
        · exact Or.inl (h.trans hlt)
        · exact Or.inl (heq ▸ h)
    · simp only [h, if_false]
      have hfe : f.time ≤ e.time := le_of_not_lt h
      refine List.pairwise_cons.mpr ⟨?_, ?_⟩
      · intro g hg
        rcases mem_insertEvent.mp hg with hge | hgfs
        · subst hge
          rcases lt_or_eq_of_le hfe with hlt | heq
          · exact Or.inl hlt
          · exact Or.inr ⟨heq, hs f (List.mem_cons_self f fs)⟩
        · exact hf g hgfs
      · exact pairwise_insertEvent hfs (fun g hg => hs g (List.mem_cons_of_mem f hg))

theorem pairwise_scheduleAll : ∀ (ts : List ℚ) (s : Nat) (q : List Ev),
    q.Pairwise evKeyLt → (∀ f ∈ q, f.seq < s) → (scheduleAll s ts q).Pairwise evKeyLt
  | [], _, _, hq, _ => hq
  | t :: ts, s, q, hq, hs => by
    simp only [scheduleAll]
    refine pairwise_scheduleAll ts (s + 1) _ (pairwise_insertEvent hq hs) ?_
    intro f hf
    rcases mem_insertEvent.mp hf with hfe | hfq
    · subst hfe
      exact Nat.lt_succ_self s
    · exact Nat.lt_succ_of_lt (hs f hfq)

theorem parseArgs_isSome_of_valid : ∀ (c : Config) (args : List Arg),
    Arg.invalidFlag ∉ args → (parseArgs c args).isSome = true
  | _, [], _ => rfl
  | c, a :: rest, h => by
    have ha : a ≠ Arg.invalidFlag := fun he => h (he ▸ List.mem_cons_self a rest)
    have hrest : Arg.invalidFlag ∉ rest := fun hm => h (List.mem_cons_of_mem a hm)
    cases a with
    | pcapFlag b => exact parseArgs_isSome_of_valid _ rest hrest
    | printRoutesFlag b => exact parseArgs_isSome_of_valid _ rest hrest
    | sizeFlag n => exact parseArgs_isSome_of_valid _ rest hrest
    | timeFlag t => exact parseArgs_isSome_of_valid _ rest hrest
    | stepFlag s => exact parseArgs_isSome_of_valid _ rest hrest
    | invalidFlag => exact absurd rfl ha

/-! Claim theorems -/

/-- Claim C1: after `CreateNodes` runs, node `i` (for all `i < size`) is
positioned at `((i mod W)·step, (i div W)·step)` where the row width `W`
equals `size`, which is the 1-dimensional line `(i·step, 0)`. -/
theorem createNodes_grid_positions (size i : Nat) (step : ℚ) (h : i < size) :
    createNodesPosition size step i
      = (((i % size : Nat) : ℚ) * step, ((i / size : Nat) : ℚ) * step) ∧
    createNodesPosition size step i = ((i : ℚ) * step, 0) := by
  have hm : i % size = i := Nat.mod_eq_of_lt h
  have hd : i / size = 0 := Nat.div_eq_of_lt h
  constructor <;> simp [createNodesPosition, gridPosition, hm, hd]

/-- Witness for C1: the default-like scenario size 4, step 100, node 2
sits at (200, 0). -/
theorem createNodes_grid_positions_witness :
    createNodesPosition 4 100 2
      = (((2 % 4 : Nat) : ℚ) * 100, ((2 / 4 : Nat) : ℚ) * 100) ∧
    createNodesPosition 4 100 2 = (((2 : Nat) : ℚ) * 100, 0) :=
  createNodes_grid_positions 4 2 100 (by decide)

/-- Claim C7: one program execution invokes `Simulator::Run` twice — once
at the end of `InstallApplications` and once again in `AodvExample::Run`. -/
theorem run_invokes_simulator_twice :
    runCalls.count SimCall.simRun = 2 ∧
    installApplicationsCalls.count SimCall.simRun = 1 := by
  decide

/-- Claim C9: every node `i < n` opens a passive receive endpoint before
the simulator runs: a UDP socket bound to port 80 with the receive
callback installed; the sink setup step comes before the first
`Simulator::Run` in the call order. -/
theorem sinks_on_every_node (n i : Nat) (h : i < n) :
    (installSinks n).length = n ∧
    (installSinks n).get? i
      = some { node := i, tid := "ns3::UdpSocketFactory", port := 80,
               hasRecvCallback := true } ∧
    runCalls.indexOf SimCall.sinkSetup < runCalls.indexOf SimCall.simRun := by
  refine ⟨by simp [installSinks], ?_, by decide⟩
  simp [installSinks, List.get?_eq_getElem?, List.getElem?_map, List.getElem?_range h]

/-- Witness for C9: with 10 nodes, node 3 has its UDP port-80 sink with
receive callback. -/
theorem sinks_on_every_node_witness :
    (installSinks 10).length = 10 ∧
    (installSinks 10).get? 3
      = some { node := 3, tid := "ns3::UdpSocketFactory", port := 80,
               hasRecvCallback := true } ∧
    runCalls.indexOf SimCall.sinkSetup < runCalls.indexOf SimCall.simRun :=
  sinks_on_every_node 10 3 (by decide)

/-- Claim C10: with no flags the configuration keeps the defaults size 10,
step 100, time 100, pcap false, printRoutes true; and whenever printRoutes
is set, a routing-table dump is scheduled at 8 seconds with one section
per node. -/
theorem default_config_and_route_dump (c : Config) (h : c.printRoutes = true) :
    parseArgs defaultConfig [] = some defaultConfig ∧
    defaultConfig.size = 10 ∧ defaultConfig.step = 100 ∧
    defaultConfig.totalTime = 100 ∧ defaultConfig.pcap = false ∧
    defaultConfig.printRoutes = true ∧
    routingDump c = some (8, c.size) := by
  refine ⟨rfl, rfl, rfl, rfl, rfl, rfl, ?_⟩
  simp [routingDump, h]

/-- Witness for C10: the default configuration itself has printRoutes set,
so its dump is scheduled at 8 seconds with one section per node. -/
theorem default_config_and_route_dump_witness :
    parseArgs defaultConfig [] = some defaultConfig ∧
    defaultConfig.size = 10 ∧ defaultConfig.step = 100 ∧
    defaultConfig.totalTime = 100 ∧ defaultConfig.pcap = false ∧
    defaultConfig.printRoutes = true ∧
    routingDump defaultConfig = some (8, defaultConfig.size) :=
  default_config_and_route_dump defaultConfig rfl

/-- Claim C6: after address assignment completes, every node has exactly
one address, the addresses are pairwise distinct, and each lies within the
subnet 10.0.0.0/255.0.0.0 (leading octet 10). -/
theorem assignAddresses_distinct_in_subnet (n : Nat) (l : List Nat)
    (h : assignAddresses n = some l) :
    l.length = n ∧ l.Nodup ∧ ∀ a ∈ l, a / 2 ^ 24 = 10 := by
  unfold assignAddresses at h
  by_cases hn : n ≤ hostMax
  · rw [if_pos hn] at h
    obtain rfl : (List.range n).map (fun i => ipBase + i + 1) = l := by
      injection h
    refine ⟨by simp, ?_, ?_⟩
    · refine List.Nodup.map ?_ (List.nodup_range n)
      intro a b hab
      dsimp only at hab
      unfold ipBase at hab
      omega
    · intro a ha
      obtain ⟨i, hi, rfl⟩ := List.mem_map.mp ha
      have hin : i < n := List.mem_range.mp hi
      have hh : hostMax = 16777214 := by norm_num [hostMax]
      have hbound : i + 1 < 16777216 := by omega
      show (ipBase + i + 1) / 2 ^ 24 = 10
      have hb : ipBase = 167772160 := by norm_num [ipBase]
      have hp : (2 : ℕ) ^ 24 = 16777216 := by norm_num
      rw [hb, hp]
      omega
  · rw [if_neg hn] at h
    exact absurd h (by simp)

/-- Witness for C6: assigning addresses to 3 nodes yields 10.0.0.1,
10.0.0.2, 10.0.0.3 — three distinct addresses inside 10.0.0.0/8. -/
theorem assignAddresses_distinct_in_subnet_witness :
    ([167772161, 167772162, 167772163] : List Nat).length = 3 ∧
    ([167772161, 167772162, 167772163] : List Nat).Nodup ∧
    ∀ a ∈ ([167772161, 167772162, 167772163] : List Nat), a / 2 ^ 24 = 10 :=
  assignAddresses_distinct_in_subnet 3 [167772161, 167772162, 167772163] (by rfl)

/-- Claim C2: exactly one OnOff flow is created per run, installed on
node 0, addressed to node `size - 1`'s address on port 80, started at the
drawn value `r ∈ [1, 2)` and stopped at exactly 10 seconds, whatever the
configured total simulation time is. -/
theorem installApplications_single_flow (size : Nat) (totalTime r : ℚ)
    (h1 : 1 ≤ size) (h2 : size ≤ hostMax) (hr1 : 1 ≤ r) (hr2 : r < 2) :
    ∃ addrs app, assignAddresses size = some addrs ∧
      installApplications size totalTime addrs r = some app ∧
      app.flows.length = 1 ∧
      ∀ f ∈ app.flows, f.sourceNode = 0 ∧ f.destPort = 80 ∧
        addrs.get? (size - 1) = some f.destAddr ∧
        f.startTime = r ∧ 1 ≤ f.startTime ∧ f.startTime < 2 ∧ f.stopTime = 10 := by
  have hh : hostMax = 16777214 := by norm_num [hostMax]
  have haddrs : assignAddresses size
      = some ((List.range size).map (fun i => ipBase + i + 1)) := by
    unfold assignAddresses
    rw [if_pos h2]
  have hidx : (size + 2 ^ 32 - 1) % 2 ^ 32 = size - 1 := by
    have hp : (2 : ℕ) ^ 32 = 4294967296 := by norm_num
    rw [hp]
    omega
  have hget : ((List.range size).map (fun i => ipBase + i + 1)).get? (size - 1)
      = some (ipBase + (size - 1) + 1) := by
    rw [List.get?_eq_getElem?]
    simp [List.getElem?_map, List.getElem?_range (by omega : size - 1 < size)]
  have happ : installApplications size totalTime
        ((List.range size).map (fun i => ipBase + i + 1)) r
      = some { sinks := installSinks size,
               flows := [{ sourceNode := 0, destAddr := ipBase + (size - 1) + 1,
                           destPort := 80, startTime := r, stopTime := 10 }],
               simStopAt := totalTime } := by
    unfold installApplications
    rw [hidx, hget]
    have h0 : ¬ size = 0 := by omega
    simp [h0]
  refine ⟨_, _, haddrs, happ, rfl, ?_⟩
  intro f hf
  have hfe : f = { sourceNode := 0, destAddr := ipBase + (size - 1) + 1,
                   destPort := 80, startTime := r, stopTime := 10 } := by
    simpa using hf
  subst hfe
  exact ⟨rfl, rfl, hget, rfl, hr1, hr2, rfl⟩

/-- Witness for C2: the default scenario size 10, total time 100, with the
draw 3/2, yields exactly one flow from node 0 to the last node's address
on port 80, starting at 3/2 and stopping at 10. -/
theorem installApplications_single_flow_witness :
    ∃ addrs app, assignAddresses 10 = some addrs ∧
      installApplications 10 100 addrs (3 / 2) = some app ∧
      app.flows.length = 1 ∧
      ∀ f ∈ app.flows, f.sourceNode = 0 ∧ f.destPort = 80 ∧
        addrs.get? (10 - 1) = some f.destAddr ∧
        f.startTime = 3 / 2 ∧ 1 ≤ f.startTime ∧ f.startTime < 2 ∧ f.stopTime = 10 :=
  installApplications_single_flow 10 100 (3 / 2) (by decide)
    (by norm_num [hostMax]) (by norm_num) (by norm_num)

/-- Counterexample for C3: the receive trace line is emitted as
`NS_LOG_UNCOND ("AODV " + ...)`, so at time 2.5 on node 3 with source
10.0.0.1 the line is `AODV 2.5 3 received one packet from 10.0.0.1`, not
the claimed `2.5 3 received one packet from 10.0.0.1`. -/
theorem receive_trace_not_in_claimed_form :
    receiveRoutingPacket "2.5" 3 [{ srcIsInet := true, srcIp := "10.0.0.1" }]
      = ["AODV 2.5 3 received one packet from 10.0.0.1"] ∧
    receiveRoutingPacket "2.5" 3 [{ srcIsInet := true, srcIp := "10.0.0.1" }]
      ≠ ["2.5 3 received one packet from 10.0.0.1"] := by
  constructor
  · decide
  · decide

/-- Claim C3 (amended): each transmit event emits exactly one line
`<time> source <sourceIp> send to dest <destIp>`; each received packet
emits exactly one line `AODV <time> <nodeId> received one packet from
<sourceIp>` (or `AODV <time> <nodeId> received one packet!` when the
source address type cannot be resolved); one line per packet. -/
theorem trace_line_formats (t sip dip ip : String) (n : Nat)
    (pkts : List RecvPacket) :
    onOffTraceLine t true true sip dip
      = t ++ " source " ++ sip ++ " send to dest " ++ dip ∧
    receiveRoutingPacket t n ({ srcIsInet := true, srcIp := ip } :: pkts)
      = ("AODV " ++ (t ++ " " ++ toString n ++ " received one packet from " ++ ip))
          :: receiveRoutingPacket t n pkts ∧
    receiveRoutingPacket t n ({ srcIsInet := false, srcIp := ip } :: pkts)
      = ("AODV " ++ (t ++ " " ++ toString n ++ " received one packet!"))
          :: receiveRoutingPacket t n pkts ∧
    (receiveRoutingPacket t n pkts).length = pkts.length := by
  refine ⟨rfl, ?_, ?_, by simp [receiveRoutingPacket]⟩ <;>
    simp [receiveRoutingPacket, printReceivedRoutingPacket]

/-- Claim C4 at the failing inputs: with size 0 the address pool assigns
an empty list and `InstallApplications` fails out of range (the uint32_t
index `size - 1` wraps), instead of completing cleanly; with size 1 the
install succeeds but schedules one flow (node 0 to its own address),
instead of scheduling none. -/
theorem degenerate_sizes_install_behavior :
    assignAddresses 0 = some [] ∧
    installApplications 0 100 [] (3 / 2) = none ∧
    assignAddresses 1 = some [167772161] ∧
    (∃ app, installApplications 1 100 [167772161] (3 / 2) = some app ∧
      app.flows.length = 1) := by
  exact ⟨rfl, rfl, rfl, ⟨_, rfl, rfl⟩⟩

/-- Claim C5: the dispatched event sequence is ordered by the scheduler
key (fire time, then insertion sequence for equal times), hence its fire
times are monotonically non-decreasing, and no dispatched event fires
strictly after the stop time. -/
theorem scheduler_dispatch_ordered (times : List ℚ) (stop : ℚ) :
    (dispatched times stop).Pairwise evKeyLt ∧
    (dispatched times stop).Pairwise (fun a b => a.time ≤ b.time) ∧
    ∀ e ∈ dispatched times stop, e.time ≤ stop := by
  have hq : (scheduleAll 0 times []).Pairwise evKeyLt :=
    pairwise_scheduleAll times 0 [] List.Pairwise.nil (by simp)
  have hd : (dispatched times stop).Pairwise evKeyLt :=
    List.Pairwise.sublist (List.filter_sublist _) hq
  refine ⟨hd, hd.imp ?_, ?_⟩
  · intro a b hab
    rcases hab with hlt | ⟨heq, _⟩
    · exact le_of_lt hlt
    · exact le_of_eq heq
  · intro e he
    have hm := List.mem_filter.mp he
    exact of_decide_eq_true hm.2

/-- Counterexample for C8: an invalid flag aborts inside command-line
parsing, not through the `NS_FATAL_ERROR` branch in `main`: `Configure`
ends in an unconditional `return true`, so that branch is never the abort
path. -/
theorem invalid_flag_skips_main_branch :
    mainOutcome [Arg.invalidFlag] = MainOutcome.fatalParse ∧
    MainOutcome.fatalParse ≠ MainOutcome.fatalConfigBranch := by
  exact ⟨rfl, by decide⟩

/-- Claim C8 (amended): the program exits with code 0 after a full run
with valid flags; invalid flags abort fatally inside the parser before
`Configure` returns; the `Configure`-failure branch in `main` is
unreachable for every argument list, since `Configure` returns true
whenever it returns at all. -/
theorem main_exit_behavior (args : List Arg) (h : Arg.invalidFlag ∉ args) :
    mainOutcome args = MainOutcome.exitZero ∧
    ∀ bs : List Arg, mainOutcome bs ≠ MainOutcome.fatalConfigBranch := by
  constructor
  · have hs := parseArgs_isSome_of_valid defaultConfig args h
    rcases ho : parseArgs defaultConfig args with _ | c
    · rw [ho] at hs
      simp at hs
    · simp [mainOutcome, Configure, ho]
  · intro bs
    rcases ho : parseArgs defaultConfig bs with _ | c <;>
      simp [mainOutcome, Configure, ho]

/-- Witness for C8 (amended): the empty argument list runs to exit code 0
and no argument list reaches the branch in `main`. -/
theorem main_exit_behavior_witness :
    mainOutcome [] = MainOutcome.exitZero ∧
    ∀ bs : List Arg, mainOutcome bs ≠ MainOutcome.fatalConfigBranch :=
  main_exit_behavior [] (by simp)

end Aodv
